import Mathlib

/-!
# FindCVE — verification of the relational data model and the web UI helpers

Shallow embedding of the FindCVE repository:

* `migrations/init.sql` — the relational schema (tables `vulnerabilities`,
  `cwe`, `vulnerability_cwe`, `cpe`, `poc_references`, `affected_projects`,
  and the five indexes).  Nullable SQL columns are `Option` fields, `SERIAL`
  ids are `Nat`, `NUMERIC` is `Rat`, `TIMESTAMP` is `Int` (epoch).
  Row-mutating statements are modelled as state transformers on a `DB`
  record; a statement rejected by a schema constraint (NOT NULL, UNIQUE,
  PRIMARY KEY, REFERENCES) leaves the database unchanged, which is the
  semantics of a failed SQL statement.

* `services/web-ui/src/App.jsx` — the translation helpers `translateOne`
  and `translateBatch`, and the local annotation handlers
  `toggleFavorite`/`addTag`/`addComment` together with their
  `localStorage` persistence effects.

The writer processes (`services/cve-worker`, `services/cve-api`) are not
part of the source tree; operations owned by them are modelled from the
specification and are marked `Modelled from the spec:` in their doc
comments.
-/

namespace FindCVE

/-- Row of `vulnerabilities` (init.sql lines 21-37).  `cve_id` is declared
`TEXT UNIQUE NOT NULL`; every other data column is nullable. -/
structure VulnRow where
  id : Nat
  cve_id : Option String
  description : Option String
  published_at : Option Int
  updated_at : Option Int
  cvss_v3_score : Option Rat
  cvss_v3_severity : Option String
  cvss_v3_vector : Option String
  cvss_v2_score : Option Rat
  cvss_v2_severity : Option String
  cvss_v2_vector : Option String
  has_poc : Bool
  poc_count : Int
  created_at : Option Int
  modified_at : Option Int
deriving DecidableEq

/-- Row of `cwe` (init.sql lines 42-46). -/
structure CweRow where
  id : Nat
  cwe_id : Option String
  name : Option String
deriving DecidableEq

/-- Row of the join table `vulnerability_cwe` (init.sql lines 51-55).
`PRIMARY KEY (vuln_id, cwe_id)` forces both columns NOT NULL, so they are
plain `Nat` here. -/
structure VulnCweRow where
  vuln_id : Nat
  cwe_id : Nat
deriving DecidableEq

/-- Row of `cpe` (init.sql lines 60-66).  Note that the DDL declares
`vuln_id INT REFERENCES vulnerabilities(id) ON DELETE CASCADE` without a
NOT NULL clause, so the column is an `Option Nat`. -/
structure CpeRow where
  id : Nat
  vuln_id : Option Nat
  vendor : Option String
  product : Option String
  version : Option String
deriving DecidableEq

/-- Row of `poc_references` (init.sql lines 82-89). -/
structure PocRow where
  id : Nat
  vuln_id : Option Nat
  url : Option String
  kind : Option String
  stars : Option Int
  last_commit_at : Option Int
deriving DecidableEq

/-- Row of `affected_projects` (init.sql lines 94-103). -/
structure AffectedRow where
  id : Nat
  vuln_id : Option Nat
  repo_full_name : Option String
  html_url : Option String
  language : Option String
  evidence : Option String
  matched_version : Option String
  found_at : Option Int
deriving DecidableEq

/-- The database state: the tables of `init.sql` that the verified claims
are about (`bot_users` and `vuln_references` play no role in any claim and
are omitted). -/
structure DB where
  vulnerabilities : List VulnRow
  cwe : List CweRow
  vulnerability_cwe : List VulnCweRow
  cpe : List CpeRow
  poc_references : List PocRow
  affected_projects : List AffectedRow
deriving DecidableEq

/-- The empty database, the state right after running the migration. -/
def emptyDB : DB := ⟨[], [], [], [], [], []⟩

/-- `∃` a `vulnerabilities` row with surrogate key `n`. -/
def hasVuln (db : DB) (n : Nat) : Prop :=
  ∃ v ∈ db.vulnerabilities, v.id = n

instance (db : DB) (n : Nat) : Decidable (hasVuln db n) :=
  inferInstanceAs (Decidable (∃ v ∈ db.vulnerabilities, v.id = n))

/-- `∃` a `cwe` row with surrogate key `n`. -/
def hasCwe (db : DB) (n : Nat) : Prop :=
  ∃ c ∈ db.cwe, c.id = n

instance (db : DB) (n : Nat) : Decidable (hasCwe db n) :=
  inferInstanceAs (Decidable (∃ c ∈ db.cwe, c.id = n))

/-- Fresh `SERIAL` value for a child table: one past the maximum id. -/
def freshId (ids : List Nat) : Nat :=
  ids.foldr max 0 + 1

/-- `INSERT INTO vulnerabilities`: rejected (no-op) when `cve_id` is NULL
(NOT NULL), when another row already holds the same `cve_id` (UNIQUE), or
when the explicit id collides (PRIMARY KEY). -/
def insertVuln (db : DB) (r : VulnRow) : DB :=
  if r.cve_id = none then db
  else if ∃ x ∈ db.vulnerabilities, x.cve_id = r.cve_id then db
  else if ∃ x ∈ db.vulnerabilities, x.id = r.id then db
  else { db with vulnerabilities := db.vulnerabilities ++ [r] }

/-- Is the incoming feed timestamp strictly newer than the stored one?
(A missing stored timestamp counts as older; a missing incoming one as
not newer.) -/
def newerThan (incoming stored : Option Int) : Bool :=
  match incoming, stored with
  | some a, some b => decide (b < a)
  | some _, none => true
  | none, _ => false

/-- Overwrite the mutable columns of an existing `vulnerabilities` row
with freshly fetched data, keeping the surrogate id and the internal
creation timestamp. -/
def overwriteMutable (old incoming : VulnRow) : VulnRow :=
  { incoming with id := old.id, created_at := old.created_at }

/-- Modelled from the spec: the Upsert Engine (`services/cve-worker`, not
in the source tree) writes a feed record by external identifier — look up
the row by `cve_id`; if absent, insert; if present and the feed's
`updated_at` is not newer than the stored one, do nothing; otherwise
overwrite the mutable columns in place (spec §4.3).  Only the parent-row
part is modelled; child-set replacement is outside the claims. -/
def upsertVuln (db : DB) (r : VulnRow) : DB :=
  if r.cve_id = none then db
  else if ∃ x ∈ db.vulnerabilities, x.cve_id = r.cve_id then
    { db with vulnerabilities := db.vulnerabilities.map (fun x =>
        if x.cve_id = r.cve_id then
          (if newerThan r.updated_at x.updated_at then overwriteMutable x r else x)
        else x) }
  else insertVuln db r

/-- `INSERT INTO cwe`: rejected on NULL `cwe_id`, duplicate `cwe_id`, or
duplicate id. -/
def insertCwe (db : DB) (r : CweRow) : DB :=
  if r.cwe_id = none then db
  else if ∃ x ∈ db.cwe, x.cwe_id = r.cwe_id then db
  else if ∃ x ∈ db.cwe, x.id = r.id then db
  else { db with cwe := db.cwe ++ [r] }

/-- `INSERT INTO vulnerability_cwe`: both `REFERENCES` constraints must
hold and the pair must not already be present (PRIMARY KEY). -/
def insertJoin (db : DB) (vid cid : Nat) : DB :=
  if hasVuln db vid ∧ hasCwe db cid ∧
      ¬ (∃ j ∈ db.vulnerability_cwe, j.vuln_id = vid ∧ j.cwe_id = cid) then
    { db with vulnerability_cwe := db.vulnerability_cwe ++ [⟨vid, cid⟩] }
  else db

/-- Modelled from the spec: the Upsert Engine inserts each normalized
AffectedComponent under its owning vulnerability's id (spec §3:
"belongs to exactly one Vulnerability"); the `REFERENCES` constraint of
the schema rejects a `vuln_id` that names no existing row. -/
def insertCpe (db : DB) (vid : Nat) (vendor product version : Option String) : DB :=
  if hasVuln db vid then
    { db with cpe := db.cpe ++
        [⟨freshId (db.cpe.map CpeRow.id), some vid, vendor, product, version⟩] }
  else db

/-- `DELETE FROM vulnerabilities WHERE id = vid`, with the
`ON DELETE CASCADE` clauses of every child table. -/
def deleteVuln (db : DB) (vid : Nat) : DB :=
  { db with
    vulnerabilities := db.vulnerabilities.filter (fun v => v.id ≠ vid),
    vulnerability_cwe := db.vulnerability_cwe.filter (fun j => j.vuln_id ≠ vid),
    cpe := db.cpe.filter (fun c => c.vuln_id ≠ some vid),
    poc_references := db.poc_references.filter (fun p => p.vuln_id ≠ some vid),
    affected_projects := db.affected_projects.filter (fun a => a.vuln_id ≠ some vid) }

/-- `DELETE FROM cwe WHERE id = cid`, cascading into the join table. -/
def deleteCwe (db : DB) (cid : Nat) : DB :=
  { db with
    cwe := db.cwe.filter (fun c => c.id ≠ cid),
    vulnerability_cwe := db.vulnerability_cwe.filter (fun j => j.cwe_id ≠ cid) }

/-- Does an `affected_projects` row carry the dedup key
`(vuln_id, repo_full_name)`? -/
def affectedKey (vid : Nat) (repo : String) (r : AffectedRow) : Prop :=
  r.vuln_id = some vid ∧ r.repo_full_name = some repo

instance (vid : Nat) (repo : String) (r : AffectedRow) : Decidable (affectedKey vid repo r) :=
  inferInstanceAs (Decidable (r.vuln_id = some vid ∧ r.repo_full_name = some repo))

/-- Number of `affected_projects` rows holding the dedup key. -/
def affectedCount (db : DB) (vid : Nat) (repo : String) : Nat :=
  db.affected_projects.countP (fun r => decide (affectedKey vid repo r))

/-- Modelled from the spec: the Evidence Matcher (`services/cve-worker`,
not in the source tree) records AffectedProjectEvidence deduplicated by
`(vulnerability, repository identifier)` — a later match for the same key
replaces the evidence snippet (and matched version) of the existing row
rather than appending a second one (spec §4.4, §3); a first match inserts
a fresh row, subject to the schema's `REFERENCES` constraint. -/
def recordAffectedProject (db : DB) (vid : Nat)
    (repo url language evidence matchedVersion : String) (now : Int) : DB :=
  if ∃ r ∈ db.affected_projects, affectedKey vid repo r then
    { db with affected_projects := db.affected_projects.map (fun r =>
        if affectedKey vid repo r then
          { r with evidence := some evidence, matched_version := some matchedVersion }
        else r) }
  else if hasVuln db vid then
    { db with affected_projects := db.affected_projects ++
        [⟨freshId (db.affected_projects.map AffectedRow.id), some vid, some repo,
          some url, some language, some evidence, some matchedVersion, some now⟩] }
  else db

/-- Does a `poc_references` row carry the dedup key `(vuln_id, url)`? -/
def pocKey (vid : Nat) (url : String) (r : PocRow) : Prop :=
  r.vuln_id = some vid ∧ r.url = some url

instance (vid : Nat) (url : String) (r : PocRow) : Decidable (pocKey vid url r) :=
  inferInstanceAs (Decidable (r.vuln_id = some vid ∧ r.url = some url))

/-- Number of `poc_references` rows holding the dedup key. -/
def pocCount (db : DB) (vid : Nat) (url : String) : Nat :=
  db.poc_references.countP (fun r => decide (pocKey vid url r))

/-- Modelled from the spec: the Evidence Matcher upserts ExploitEvidence
by URL — refresh the popularity/recency signals (star count, last commit
time) of the existing row for `(vulnerability, URL)` if one is present,
insert otherwise (spec §4.4, §3); inserts are subject to the schema's
`REFERENCES` constraint. -/
def upsertPoc (db : DB) (vid : Nat) (url : String) (kind : Option String)
    (stars lastCommit : Int) : DB :=
  if ∃ r ∈ db.poc_references, pocKey vid url r then
    { db with poc_references := db.poc_references.map (fun r =>
        if pocKey vid url r then
          { r with stars := some stars, last_commit_at := some lastCommit }
        else r) }
  else if hasVuln db vid then
    { db with poc_references := db.poc_references ++
        [⟨freshId (db.poc_references.map PocRow.id), some vid, some url, kind,
          some stars, some lastCommit⟩] }
  else db

/-- One database-mutating operation of the system. -/
inductive DbOp where
  | insertVuln (r : VulnRow)
  | upsertVuln (r : VulnRow)
  | insertCwe (r : CweRow)
  | insertJoin (vid cid : Nat)
  | insertCpe (vid : Nat) (vendor product version : Option String)
  | deleteVuln (vid : Nat)
  | deleteCwe (cid : Nat)
  | recordAffectedProject (vid : Nat) (repo url language evidence matchedVersion : String) (now : Int)
  | upsertPoc (vid : Nat) (url : String) (kind : Option String) (stars lastCommit : Int)
deriving DecidableEq

/-- Apply one operation. -/
def applyOp (db : DB) : DbOp → DB
  | DbOp.insertVuln r => insertVuln db r
  | DbOp.upsertVuln r => upsertVuln db r
  | DbOp.insertCwe r => insertCwe db r
  | DbOp.insertJoin vid cid => insertJoin db vid cid
  | DbOp.insertCpe vid vendor product version => insertCpe db vid vendor product version
  | DbOp.deleteVuln vid => deleteVuln db vid
  | DbOp.deleteCwe cid => deleteCwe db cid
  | DbOp.recordAffectedProject vid repo url language evidence matchedVersion now =>
      recordAffectedProject db vid repo url language evidence matchedVersion now
  | DbOp.upsertPoc vid url kind stars lastCommit => upsertPoc db vid url kind stars lastCommit

/-- Run a sequence of operations. -/
def runDb (db : DB) : List DbOp → DB
  | [] => db
  | op :: ops => runDb (applyOp db op) ops

/-- The schema invariants the claims are about:
1. every `vulnerabilities` row has a non-NULL `cve_id`;
2. no two `vulnerabilities` rows share a `cve_id` (UNIQUE);
3. every join row references an existing vulnerability and an existing CWE;
4. every `cpe` row has a non-NULL `vuln_id` naming an existing vulnerability. -/
def DbInv (db : DB) : Prop :=
  (∀ r ∈ db.vulnerabilities, r.cve_id ≠ none) ∧
  (db.vulnerabilities.map VulnRow.cve_id).Nodup ∧
  (∀ j ∈ db.vulnerability_cwe, hasVuln db j.vuln_id ∧ hasCwe db j.cwe_id) ∧
  (∀ c ∈ db.cpe, ∃ v ∈ db.vulnerabilities, c.vuln_id = some v.id)

instance (db : DB) : Decidable (DbInv db) := by
  unfold DbInv hasVuln hasCwe
  infer_instance

/-! ## Web UI — translation helpers (App.jsx lines 21-73)

`translateOne` keeps a session-level cache (`_translateCache`), truncates
the query to 4900 characters, calls the MyMemory service, and falls back
to the original text on a thrown error or a falsy `translatedText`.
The service call is modelled as an oracle `svc : String → SvcResult`;
state also records the list of queries actually sent, so that "no service
call happens" is a provable statement.  The JavaScript `text` parameter
may be `undefined`/`null`/`""`; all three are falsy, modelled as `""`. -/

/-- Outcome of `fetch(url)` + `res.json()`: either the chain threw, or it
produced a `data` object whose `responseData.translatedText` may be
missing (`none`) or any string (JavaScript `""` is falsy). -/
inductive SvcResult where
  | thrown
  | ok (translatedText : Option String)
deriving DecidableEq

/-- The module-level `_translateCache` plus the log of queries sent. -/
structure TransState where
  cache : List (String × String)
  calls : List String
deriving DecidableEq

/-- First value bound to a key in an association list, if any. -/
def getKey {β : Type} (l : List (String × β)) (k : String) : Option β :=
  (l.find? (fun p => p.1 = k)).map Prod.snd

/-- `` `${source}|${target}|${text}` `` of App.jsx line 28. -/
def cacheKeyOf (source target text : String) : String :=
  source ++ "|" ++ target ++ "|" ++ text

/-- JavaScript `x || fallback` on an optional string: falsy (`undefined`,
`null`, `""`) selects the fallback. -/
def jsOr (x : Option String) (fallback : String) : String :=
  match x with
  | some s => if s = "" then fallback else s
  | none => fallback

/-- `translateOne` of App.jsx lines 26-47: empty text short-circuits to
`""`; a cache hit returns the cached value; otherwise the service is
called on the first 4900 characters, the fallback on error/falsy result
is the full original `text`, and successful results are cached. -/
def translateOne (svc : String → SvcResult) (st : TransState)
    (text source target : String) : String × TransState :=
  if text = "" then ("", st)
  else
    let key := cacheKeyOf source target text
    match getKey st.cache key with
    | some v => (v, st)
    | none =>
      let q := text.take 4900
      let st1 : TransState := { st with calls := st.calls ++ [q] }
      match svc q with
      | SvcResult.thrown => (text, st1)
      | SvcResult.ok tt =>
        let t := jsOr tt text
        (t, { st1 with cache := st1.cache ++ [(key, t)] })

/-! ## Web UI — `translateBatch` (App.jsx lines 52-73)

`translateBatch` allocates `out = new Array(texts.length)`, puts the
indices `0..n-1` into a shared FIFO `idxs`, and starts
`min(concurrency, n)` identical async workers.  A worker atomically pops
the head of `idxs` (no `await` between the emptiness check and `shift`,
so the pop is atomic in the JavaScript event loop), awaits
`translateOne(texts[i] || "")`, and stores the result at `out[i]`.
The per-index result is abstracted as `f : String → String`; distinct
interleavings of any number ≥ 1 of workers are exactly the interleavings
of the two atomic steps below, so the step relation is independent of the
concurrency setting. -/

/-- Shared state of the worker pool: the index FIFO `idxs`, the indices
popped but not yet written back, and the output array (`none` = hole). -/
structure BatchState where
  queue : List Nat
  pending : List Nat
  out : List (Option String)
deriving DecidableEq

/-- One atomic step of some worker: pop the head of the FIFO, or finish
an in-flight translation by writing `f (texts[i] || "")` to `out[i]`. -/
inductive BatchStep (f : String → String) (texts : List String) :
    BatchState → BatchState → Prop where
  | shift (i : Nat) (rest pend : List Nat) (out : List (Option String)) :
      BatchStep f texts ⟨i :: rest, pend, out⟩ ⟨rest, pend ++ [i], out⟩
  | finish (q p1 p2 : List Nat) (i : Nat) (out : List (Option String)) :
      BatchStep f texts ⟨q, p1 ++ i :: p2, out⟩
        ⟨q, p1 ++ p2, out.set i (some (f (texts.getD i "")))⟩

/-- Initial state of `translateBatch texts`. -/
def batchInit (texts : List String) : BatchState :=
  ⟨List.range texts.length, [], List.replicate texts.length none⟩

/-- `Promise.all(workers)` has resolved: no queued and no in-flight work. -/
def BatchDone (s : BatchState) : Prop :=
  s.queue = [] ∧ s.pending = []

/-- States reachable by some interleaving of the workers. -/
def BatchReach (f : String → String) (texts : List String) (s : BatchState) : Prop :=
  Relation.ReflTransGen (BatchStep f texts) (batchInit texts) s

/-- Inductive invariant of the worker pool: the output array keeps its
length, queued/in-flight indices are in range, and every in-range index is
queued, in flight, or already written with the value for its own slot. -/
def BatchInv (f : String → String) (texts : List String) (s : BatchState) : Prop :=
  s.out.length = texts.length ∧
  (∀ i ∈ s.queue, i < texts.length) ∧
  (∀ i ∈ s.pending, i < texts.length) ∧
  (∀ i, i < texts.length →
    i ∈ s.queue ∨ i ∈ s.pending ∨ s.out.get? i = some (some (f (texts.getD i ""))))

/-! ## Web UI — local annotations (App.jsx lines 232-246 and 402-413)

`toggleFavorite`, `addTag`, `addComment` only call the React state
setters for `favorites`/`tags`/`comments`; the `useEffect` hooks at lines
238-246 then persist the updated map into `localStorage`.  The state
record below also carries the fetched `vulns` and the log of HTTP
requests issued through `axios`/`fetch`, so "no write request to the API"
is a provable frame property; for contrast, `fetchVulns` (lines 279-288)
does append a request and overwrite `vulns`. -/

/-- A vulnerability record as served to the frontend by `/api/cves`. -/
structure FrontVuln where
  cve_id : String
  description : Option String
  published_at : Option String
  cvss_v3_score : Option Rat
  cvss_v3_severity : Option String
  poc : Option String
  affected_projects : List String
deriving DecidableEq

/-- HTTP requests App.jsx can issue. -/
inductive ApiRequest where
  | getCves
  | postRegister (username password : String)
  | postLogin (username password : String)
deriving DecidableEq

/-- The `localStorage` keys the app persists (decoded form of the JSON
the effects at lines 238-246 write). -/
structure LocalStore where
  favorites : List (String × Bool)
  tags : List (String × List String)
  comments : List (String × String)
deriving DecidableEq

/-- The App component state relevant to the annotation handlers. -/
structure AppState where
  vulns : List FrontVuln
  favorites : List (String × Bool)
  tags : List (String × List String)
  comments : List (String × String)
  storage : LocalStore
  apiRequests : List ApiRequest
deriving DecidableEq

/-- JavaScript object spread `{...prev, [k]: v}`: overwrite the binding
of `k` if present, append it otherwise. -/
def setKey {β : Type} (l : List (String × β)) (k : String) (v : β) : List (String × β) :=
  if l.any (fun p => p.1 = k) then
    l.map (fun p => if p.1 = k then (k, v) else p)
  else l ++ [(k, v)]

/-- `toggleFavorite` (App.jsx lines 402-403) followed by the persistence
effect (lines 238-240): `prev[id]` is `undefined` (falsy) when absent, so
the new value is the negation of the current value with default `false`. -/
def toggleFavorite (s : AppState) (id : String) : AppState :=
  let favs := setKey s.favorites id (!((getKey s.favorites id).getD false))
  { s with favorites := favs, storage := { s.storage with favorites := favs } }

/-- `addTag` (App.jsx lines 405-408) followed by the persistence effect
(lines 241-243): `promptResult` is the value of `prompt(...)` — `none`
models a cancelled prompt and `some ""` an empty entry, both falsy, in
which case nothing changes; otherwise the tag is appended to
`prev[id] || []`. -/
def addTag (s : AppState) (id : String) (promptResult : Option String) : AppState :=
  match promptResult with
  | none => s
  | some tag =>
    if tag = "" then s
    else
      let ts := setKey s.tags id ((getKey s.tags id).getD [] ++ [tag])
      { s with tags := ts, storage := { s.storage with tags := ts } }

/-- `addComment` (App.jsx lines 410-413) followed by the persistence
effect (lines 244-246): a falsy prompt result changes nothing; otherwise
the comment replaces `prev[id]`. -/
def addComment (s : AppState) (id : String) (promptResult : Option String) : AppState :=
  match promptResult with
  | none => s
  | some comment =>
    if comment = "" then s
    else
      let cs := setKey s.comments id comment
      { s with comments := cs, storage := { s.storage with comments := cs } }

/-- `fetchVulns` (App.jsx lines 279-288), for contrast with the local
annotation handlers: it issues a GET request and, on success, replaces
`vulns` with the response; on error `vulns` is left as it was. -/
def fetchVulns (s : AppState) (response : Option (List FrontVuln)) : AppState :=
  match response with
  | some data =>
    { s with vulns := data, apiRequests := s.apiRequests ++ [ApiRequest.getCves] }
  | none => { s with apiRequests := s.apiRequests ++ [ApiRequest.getCves] }

/-! ## Schema indexes (init.sql lines 108-112) -/

/-- A `CREATE INDEX` statement: name, table, column list. -/
structure SqlIndex where
  name : String
  table : String
  columns : List String
deriving DecidableEq

/-- The five indexes created by the migration. -/
def schemaIndexes : List SqlIndex :=
  [⟨"idx_vuln_cve_id", "vulnerabilities", ["cve_id"]⟩,
   ⟨"idx_vuln_severity", "vulnerabilities", ["cvss_v3_severity"]⟩,
   ⟨"idx_cpe_vendor_product_version", "cpe", ["vendor", "product", "version"]⟩,
   ⟨"idx_poc_vuln_id", "poc_references", ["vuln_id"]⟩,
   ⟨"idx_affected_vuln_id", "affected_projects", ["vuln_id"]⟩]

/-- Replace the two severity scoring column groups of a row, leaving every
other column alone — the "data model view" of the scoring columns used to
state their independence. -/
def withScores (r : VulnRow) (v3s : Option Rat) (v3sev v3vec : Option String)
    (v2s : Option Rat) (v2sev v2vec : Option String) : VulnRow :=
  { r with
    cvss_v3_score := v3s, cvss_v3_severity := v3sev, cvss_v3_vector := v3vec,
    cvss_v2_score := v2s, cvss_v2_severity := v2sev, cvss_v2_vector := v2vec }

/-- Row-level admissibility under the `vulnerabilities` DDL: the only
column-level constraint is `cve_id TEXT ... NOT NULL`. -/
def vulnRowAdmissible (r : VulnRow) : Prop :=
  r.cve_id ≠ none

instance (r : VulnRow) : Decidable (vulnRowAdmissible r) :=
  inferInstanceAs (Decidable (r.cve_id ≠ none))

/-! ## Preservation of the schema invariants -/

theorem DbInv_insertVuln (db : DB) (r : VulnRow) (h : DbInv db) :
    DbInv (insertVuln db r) := by
  obtain ⟨h1, h2, h3, h4⟩ := h
  unfold insertVuln
  split
  · exact ⟨h1, h2, h3, h4⟩
  next hnull =>
    split
    · exact ⟨h1, h2, h3, h4⟩
    next hdup =>
      split
      · exact ⟨h1, h2, h3, h4⟩
      next hid =>
        refine ⟨?_, ?_, ?_, ?_⟩
        · intro x hx
          rcases List.mem_append.1 hx with hx | hx
          · exact h1 x hx
          · rcases List.mem_singleton.1 hx with rfl
            exact hnull
        · rw [List.map_append]
          rw [List.nodup_append]
          refine ⟨h2, List.nodup_singleton _, ?_⟩
          intro a ha hb
          rcases List.mem_singleton.1 hb with rfl
          rcases List.mem_map.1 ha with ⟨x, hx, hxeq⟩
          exact hdup ⟨x, hx, hxeq⟩
        · intro j hj
          obtain ⟨⟨v, hv, hvid⟩, hc⟩ := h3 j hj
          exact ⟨⟨v, List.mem_append_left _ hv, hvid⟩, hc⟩
        · intro c hc
          obtain ⟨v, hv, hveq⟩ := h4 c hc
          exact ⟨v, List.mem_append_left _ hv, hveq⟩

theorem DbInv_upsertVuln (db : DB) (r : VulnRow) (h : DbInv db) :
    DbInv (upsertVuln db r) := by
  obtain ⟨h1, h2, h3, h4⟩ := h
  unfold upsertVuln
  split
  · exact ⟨h1, h2, h3, h4⟩
  next hnull =>
    split
    case isFalse => exact DbInv_insertVuln db r ⟨h1, h2, h3, h4⟩
    case isTrue hex =>
      set f : VulnRow → VulnRow := fun x =>
        if x.cve_id = r.cve_id then
          (if newerThan r.updated_at x.updated_at then overwriteMutable x r else x)
        else x with hf
      have hfc : ∀ x : VulnRow, (f x).cve_id = x.cve_id := by
        intro x
        by_cases hx : x.cve_id = r.cve_id
        · simp only [hf, hx, if_pos]
          split <;> simp [overwriteMutable, hx]
        · simp only [hf, if_neg hx]
      have hfi : ∀ x : VulnRow, (f x).id = x.id := by
        intro x
        by_cases hx : x.cve_id = r.cve_id
        · simp only [hf, hx, if_pos]
          split <;> simp [overwriteMutable]
        · simp only [hf, if_neg hx]
      refine ⟨?_, ?_, ?_, ?_⟩
      · intro x hx
        rcases List.mem_map.1 hx with ⟨y, hy, rfl⟩
        rw [hfc y]
        exact h1 y hy
      · rw [List.map_map]
        have : db.vulnerabilities.map (VulnRow.cve_id ∘ f) = db.vulnerabilities.map VulnRow.cve_id :=
          List.map_congr_left (fun a _ => hfc a)
        rw [this]
        exact h2
      · intro j hj
        obtain ⟨⟨v, hv, hvid⟩, ⟨c, hc, hcid⟩⟩ := h3 j hj
        refine ⟨⟨f v, List.mem_map_of_mem f hv, ?_⟩, ⟨c, hc, hcid⟩⟩
        rw [hfi v]; exact hvid
      · intro c hc
        obtain ⟨v, hv, hveq⟩ := h4 c hc
        refine ⟨f v, List.mem_map_of_mem f hv, ?_⟩
        rw [hfi v]; exact hveq

theorem DbInv_insertCwe (db : DB) (r : CweRow) (h : DbInv db) :
    DbInv (insertCwe db r) := by
  obtain ⟨h1, h2, h3, h4⟩ := h
  unfold insertCwe
  split
  · exact ⟨h1, h2, h3, h4⟩
  split
  · exact ⟨h1, h2, h3, h4⟩
  split
  · exact ⟨h1, h2, h3, h4⟩
  refine ⟨h1, h2, ?_, h4⟩
  intro j hj
  obtain ⟨hv, ⟨c, hc, hcid⟩⟩ := h3 j hj
  exact ⟨hv, ⟨c, List.mem_append_left _ hc, hcid⟩⟩

theorem DbInv_insertJoin (db : DB) (vid cid : Nat) (h : DbInv db) :
    DbInv (insertJoin db vid cid) := by
  obtain ⟨h1, h2, h3, h4⟩ := h
  unfold insertJoin
  split
  case isFalse => exact ⟨h1, h2, h3, h4⟩
  case isTrue hcond =>
    obtain ⟨hv, hc, -⟩ := hcond
    refine ⟨h1, h2, ?_, h4⟩
    intro j hj
    rcases List.mem_append.1 hj with hj | hj
    · exact h3 j hj
    · rcases List.mem_singleton.1 hj with rfl
      exact ⟨hv, hc⟩

theorem DbInv_insertCpe (db : DB) (vid : Nat) (vendor product version : Option String)
    (h : DbInv db) : DbInv (insertCpe db vid vendor product version) := by
  obtain ⟨h1, h2, h3, h4⟩ := h
  unfold insertCpe
  split
  case isFalse => exact ⟨h1, h2, h3, h4⟩
  case isTrue hv =>
    refine ⟨h1, h2, h3, ?_⟩
    intro c hc
    rcases List.mem_append.1 hc with hc | hc
    · exact h4 c hc
    · rcases List.mem_singleton.1 hc with rfl
      obtain ⟨v, hvm, hvid⟩ := hv
      exact ⟨v, hvm, by rw [hvid]⟩

theorem DbInv_deleteVuln (db : DB) (vid : Nat) (h : DbInv db) :
    DbInv (deleteVuln db vid) := by
  obtain ⟨h1, h2, h3, h4⟩ := h
  refine ⟨?_, ?_, ?_, ?_⟩
  · intro x hx
    exact h1 x (List.mem_of_mem_filter hx)
  · exact h2.sublist (List.filter_sublist _ |>.map _)
  · intro j hj
    have hj' := List.mem_filter.1 hj
    have hjne : j.vuln_id ≠ vid := by simpa using hj'.2
    obtain ⟨⟨v, hv, hvid⟩, ⟨c, hc, hcid⟩⟩ := h3 j hj'.1
    refine ⟨⟨v, List.mem_filter.2 ⟨hv, ?_⟩, hvid⟩, ⟨c, hc, hcid⟩⟩
    simp [hvid, hjne]
  · intro c hc
    have hc' := List.mem_filter.1 hc
    have hcne : c.vuln_id ≠ some vid := by simpa using hc'.2
    obtain ⟨v, hv, hveq⟩ := h4 c hc'.1
    refine ⟨v, List.mem_filter.2 ⟨hv, ?_⟩, hveq⟩
    have : v.id ≠ vid := by
      intro hcontra
      exact hcne (by rw [hveq, hcontra])
    simp [this]

theorem DbInv_deleteCwe (db : DB) (cid : Nat) (h : DbInv db) :
    DbInv (deleteCwe db cid) := by
  obtain ⟨h1, h2, h3, h4⟩ := h
  refine ⟨h1, h2, ?_, h4⟩
  intro j hj
  have hj' := List.mem_filter.1 hj
  have hjne : j.cwe_id ≠ cid := by simpa using hj'.2
  obtain ⟨hv, ⟨c, hc, hcid⟩⟩ := h3 j hj'.1
  refine ⟨hv, ⟨c, List.mem_filter.2 ⟨hc, ?_⟩, hcid⟩⟩
  simp [hcid, hjne]

theorem DbInv_recordAffectedProject (db : DB) (vid : Nat)
    (repo url language evidence matchedVersion : String) (now : Int) (h : DbInv db) :
    DbInv (recordAffectedProject db vid repo url language evidence matchedVersion now) := by
  unfold recordAffectedProject
  split
  · exact h
  split
  · exact h
  · exact h

theorem DbInv_upsertPoc (db : DB) (vid : Nat) (url : String) (kind : Option String)
    (stars lastCommit : Int) (h : DbInv db) :
    DbInv (upsertPoc db vid url kind stars lastCommit) := by
  unfold upsertPoc
  split
  · exact h
  split
  · exact h
  · exact h

theorem DbInv_applyOp (db : DB) (op : DbOp) (h : DbInv db) : DbInv (applyOp db op) := by
  cases op with
  | insertVuln r => exact DbInv_insertVuln db r h
  | upsertVuln r => exact DbInv_upsertVuln db r h
  | insertCwe r => exact DbInv_insertCwe db r h
  | insertJoin vid cid => exact DbInv_insertJoin db vid cid h
  | insertCpe vid vendor product version => exact DbInv_insertCpe db vid vendor product version h
  | deleteVuln vid => exact DbInv_deleteVuln db vid h
  | deleteCwe cid => exact DbInv_deleteCwe db cid h
  | recordAffectedProject vid repo url language evidence matchedVersion now =>
      exact DbInv_recordAffectedProject db vid repo url language evidence matchedVersion now h
  | upsertPoc vid url kind stars lastCommit => exact DbInv_upsertPoc db vid url kind stars lastCommit h

theorem DbInv_runDb (db : DB) (ops : List DbOp) (h : DbInv db) : DbInv (runDb db ops) := by
  induction ops generalizing db with
  | nil => exact h
  | cons op ops ih => exact ih (applyOp db op) (DbInv_applyOp db op h)

/-! ## Dedup lemmas for the evidence tables -/

theorem affectedCount_pos (db : DB) (vid : Nat) (repo : String) :
    0 < affectedCount db vid repo ↔ ∃ r ∈ db.affected_projects, affectedKey vid repo r := by
  unfold affectedCount
  rw [List.countP_pos_iff]
  simp

theorem affectedCount_zero (db : DB) (vid : Nat) (repo : String) :
    affectedCount db vid repo = 0 ↔ ∀ r ∈ db.affected_projects, ¬ affectedKey vid repo r := by
  unfold affectedCount
  rw [List.countP_eq_zero]
  simp

theorem recordAffectedProject_update (db : DB) (vid : Nat)
    (repo url language evidence matchedVersion : String) (now : Int)
    (hex : ∃ r ∈ db.affected_projects, affectedKey vid repo r) :
    affectedCount (recordAffectedProject db vid repo url language evidence matchedVersion now) vid repo
      = affectedCount db vid repo ∧
    (∀ r ∈ (recordAffectedProject db vid repo url language evidence matchedVersion now).affected_projects,
      affectedKey vid repo r → r.evidence = some evidence ∧ r.matched_version = some matchedVersion) := by
  unfold recordAffectedProject
  rw [if_pos hex]
  set g : AffectedRow → AffectedRow := fun r =>
    if affectedKey vid repo r then
      { r with evidence := some evidence, matched_version := some matchedVersion }
    else r with hg
  have hkey : ∀ r : AffectedRow, affectedKey vid repo (g r) ↔ affectedKey vid repo r := by
    intro r
    by_cases hr : affectedKey vid repo r
    · simp only [hg, if_pos hr]
      exact Iff.rfl
    · simp only [hg, if_neg hr]
  constructor
  · unfold affectedCount
    rw [List.countP_map]
    refine List.countP_congr ?_
    intro x _
    simp only [Function.comp_apply, decide_eq_true_eq]
    exact hkey x
  · intro r hr hkr
    rcases List.mem_map.1 hr with ⟨x, hx, rfl⟩
    by_cases hxk : affectedKey vid repo x
    · simp [hg, if_pos hxk]
    · exact absurd ((hkey x).1 hkr) hxk

theorem recordAffectedProject_insert (db : DB) (vid : Nat)
    (repo url language evidence matchedVersion : String) (now : Int)
    (hnone : ¬ ∃ r ∈ db.affected_projects, affectedKey vid repo r) (hv : hasVuln db vid) :
    affectedCount (recordAffectedProject db vid repo url language evidence matchedVersion now) vid repo = 1 ∧
    (∀ r ∈ (recordAffectedProject db vid repo url language evidence matchedVersion now).affected_projects,
      affectedKey vid repo r → r.evidence = some evidence ∧ r.matched_version = some matchedVersion) := by
  unfold recordAffectedProject
  rw [if_neg hnone, if_pos hv]
  constructor
  · unfold affectedCount
    simp only [List.countP_append]
    have h0 : db.affected_projects.countP (fun r => decide (affectedKey vid repo r)) = 0 := by
      rw [List.countP_eq_zero]
      intro a ha
      simp only [decide_eq_true_eq]
      exact fun hk => hnone ⟨a, ha, hk⟩
    rw [h0]
    simp [affectedKey]
  · intro r hr hkr
    rcases List.mem_append.1 hr with hr | hr
    · exact absurd hkr (fun hk => hnone ⟨r, hr, hkr⟩)
    · rcases List.mem_singleton.1 hr with rfl
      exact ⟨rfl, rfl⟩

theorem pocCount_pos (db : DB) (vid : Nat) (url : String) :
    0 < pocCount db vid url ↔ ∃ r ∈ db.poc_references, pocKey vid url r := by
  unfold pocCount
  rw [List.countP_pos_iff]
  simp

/-! ## Claim theorems — relational model -/

/-- C1: the `cve_id TEXT UNIQUE NOT NULL` constraint of the
`vulnerabilities` table makes the external identifier globally unique —
starting from any state satisfying the schema invariants, after any
sequence of operations (inserts, upserts, and all the other modelled
statements) every row has a non-null `cve_id` and no two rows share one. -/
theorem cve_id_unique_under_all_ops (db : DB) (ops : List DbOp) (h : DbInv db) :
    (∀ r ∈ (runDb db ops).vulnerabilities, r.cve_id ≠ none) ∧
    ((runDb db ops).vulnerabilities.map VulnRow.cve_id).Nodup := by
  obtain ⟨h1, h2, -, -⟩ := DbInv_runDb db ops h
  exact ⟨h1, h2⟩

theorem cve_id_unique_under_all_ops_witness :
    DbInv emptyDB ∧
    ((runDb emptyDB
        [DbOp.insertVuln ⟨1, some "CVE-2024-0001", none, none, some 10, none, none, none,
          none, none, none, false, 0, none, none⟩,
         DbOp.insertVuln ⟨2, some "CVE-2024-0001", some "duplicate", none, some 20, none, none, none,
          none, none, none, false, 0, none, none⟩,
         DbOp.upsertVuln ⟨3, some "CVE-2024-0001", some "update", none, some 30, none, none, none,
          none, none, none, true, 1, none, none⟩]).vulnerabilities.map VulnRow.cve_id).Nodup :=
  ⟨by decide, (cve_id_unique_under_all_ops emptyDB _ (by decide)).2⟩

/-- C4: every `vulnerability_cwe` row references an existing
`vulnerabilities` row and an existing `cwe` row — the `REFERENCES ... ON
DELETE CASCADE` clauses and the FK checks keep every reachable state free
of dangling join rows, in particular after any delete of either parent. -/
theorem join_rows_never_dangling (db : DB) (ops : List DbOp) (h : DbInv db) :
    ∀ j ∈ (runDb db ops).vulnerability_cwe,
      (∃ v ∈ (runDb db ops).vulnerabilities, v.id = j.vuln_id) ∧
      (∃ c ∈ (runDb db ops).cwe, c.id = j.cwe_id) := by
  obtain ⟨-, -, h3, -⟩ := DbInv_runDb db ops h
  exact h3

theorem join_rows_never_dangling_witness :
    DbInv emptyDB ∧
    (∀ j ∈ (runDb emptyDB
        [DbOp.insertVuln ⟨1, some "CVE-2024-0001", none, none, none, none, none, none,
          none, none, none, false, 0, none, none⟩,
         DbOp.insertVuln ⟨2, some "CVE-2024-0002", none, none, none, none, none, none,
          none, none, none, false, 0, none, none⟩,
         DbOp.insertCwe ⟨1, some "CWE-79", some "XSS"⟩,
         DbOp.insertJoin 1 1, DbOp.insertJoin 2 1,
         DbOp.deleteVuln 1]).vulnerability_cwe,
      (∃ v ∈ (runDb emptyDB
        [DbOp.insertVuln ⟨1, some "CVE-2024-0001", none, none, none, none, none, none,
          none, none, none, false, 0, none, none⟩,
         DbOp.insertVuln ⟨2, some "CVE-2024-0002", none, none, none, none, none, none,
          none, none, none, false, 0, none, none⟩,
         DbOp.insertCwe ⟨1, some "CWE-79", some "XSS"⟩,
         DbOp.insertJoin 1 1, DbOp.insertJoin 2 1,
         DbOp.deleteVuln 1]).vulnerabilities, v.id = j.vuln_id) ∧
      (∃ c ∈ (runDb emptyDB
        [DbOp.insertVuln ⟨1, some "CVE-2024-0001", none, none, none, none, none, none,
          none, none, none, false, 0, none, none⟩,
         DbOp.insertVuln ⟨2, some "CVE-2024-0002", none, none, none, none, none, none,
          none, none, none, false, 0, none, none⟩,
         DbOp.insertCwe ⟨1, some "CWE-79", some "XSS"⟩,
         DbOp.insertJoin 1 1, DbOp.insertJoin 2 1,
         DbOp.deleteVuln 1]).cwe, c.id = j.cwe_id)) :=
  ⟨by decide, join_rows_never_dangling emptyDB _ (by decide)⟩

/-- C5: every `cpe` row belongs to exactly one vulnerability — in every
state reachable by the modelled operations its `vuln_id` is non-null and
names an existing `vulnerabilities` row (the inserting writer is modelled
from the spec; the cascade keeps the property across deletes). -/
theorem cpe_rows_owned_by_vulnerability (db : DB) (ops : List DbOp) (h : DbInv db) :
    ∀ c ∈ (runDb db ops).cpe,
      c.vuln_id ≠ none ∧ ∃ v ∈ (runDb db ops).vulnerabilities, c.vuln_id = some v.id := by
  obtain ⟨-, -, -, h4⟩ := DbInv_runDb db ops h
  intro c hc
  obtain ⟨v, hv, hveq⟩ := h4 c hc
  refine ⟨by simp [hveq], ⟨v, hv, hveq⟩⟩

theorem cpe_rows_owned_by_vulnerability_witness :
    DbInv emptyDB ∧
    (∀ c ∈ (runDb emptyDB
        [DbOp.insertVuln ⟨1, some "CVE-2024-0001", none, none, none, none, none, none,
          none, none, none, false, 0, none, none⟩,
         DbOp.insertCpe 1 (some "acme") (some "widget") (some "1.0"),
         DbOp.insertCpe 99 (some "ghost") (some "orphan") (some "*")]).cpe,
      c.vuln_id ≠ none ∧ ∃ v ∈ (runDb emptyDB
        [DbOp.insertVuln ⟨1, some "CVE-2024-0001", none, none, none, none, none, none,
          none, none, none, false, 0, none, none⟩,
         DbOp.insertCpe 1 (some "acme") (some "widget") (some "1.0"),
         DbOp.insertCpe 99 (some "ghost") (some "orphan") (some "*")]).vulnerabilities,
        c.vuln_id = some v.id) :=
  ⟨by decide, cpe_rows_owned_by_vulnerability emptyDB _ (by decide)⟩

/-- C2: recording AffectedProjectEvidence twice for the same
`(vulnerability, repository identifier)` pair leaves exactly one
`affected_projects` row for that pair, and its evidence snippet is the
one of the most recent match — the dedup key is enforced by the
Evidence Matcher's record operation (modelled from the spec; the table
itself carries no unique constraint on the pair). -/
theorem affected_projects_deduplicated (db : DB) (vid : Nat) (repo : String)
    (u1 l1 e1 m1 : String) (t1 : Int) (u2 l2 e2 m2 : String) (t2 : Int)
    (hv : hasVuln db vid) (hcount : affectedCount db vid repo ≤ 1) :
    affectedCount (recordAffectedProject
      (recordAffectedProject db vid repo u1 l1 e1 m1 t1) vid repo u2 l2 e2 m2 t2) vid repo = 1 ∧
    ∀ r ∈ (recordAffectedProject
      (recordAffectedProject db vid repo u1 l1 e1 m1 t1) vid repo u2 l2 e2 m2 t2).affected_projects,
      affectedKey vid repo r → r.evidence = some e2 := by
  by_cases hex : ∃ r ∈ db.affected_projects, affectedKey vid repo r
  · have hc1 : affectedCount db vid repo = 1 :=
      Nat.le_antisymm hcount ((affectedCount_pos db vid repo).2 hex)
    obtain ⟨hcnt1, -⟩ := recordAffectedProject_update db vid repo u1 l1 e1 m1 t1 hex
    have hex1 : ∃ r ∈ (recordAffectedProject db vid repo u1 l1 e1 m1 t1).affected_projects,
        affectedKey vid repo r := by
      refine (affectedCount_pos _ vid repo).1 ?_
      rw [hcnt1, hc1]
      exact Nat.one_pos
    obtain ⟨hcnt2, hev2⟩ := recordAffectedProject_update _ vid repo u2 l2 e2 m2 t2 hex1
    refine ⟨by rw [hcnt2, hcnt1, hc1], fun r hr hk => (hev2 r hr hk).1⟩
  · obtain ⟨hcnt1, -⟩ := recordAffectedProject_insert db vid repo u1 l1 e1 m1 t1 hex hv
    have hex1 : ∃ r ∈ (recordAffectedProject db vid repo u1 l1 e1 m1 t1).affected_projects,
        affectedKey vid repo r := by
      refine (affectedCount_pos _ vid repo).1 ?_
      rw [hcnt1]
      exact Nat.one_pos
    obtain ⟨hcnt2, hev2⟩ := recordAffectedProject_update _ vid repo u2 l2 e2 m2 t2 hex1
    refine ⟨by rw [hcnt2, hcnt1], fun r hr hk => (hev2 r hr hk).1⟩

theorem affected_projects_deduplicated_witness :
    hasVuln ⟨[⟨1, some "CVE-2024-0001", none, none, none, none, none, none,
        none, none, none, false, 0, none, none⟩], [], [], [], [], []⟩ 1 ∧
    affectedCount ⟨[⟨1, some "CVE-2024-0001", none, none, none, none, none, none,
        none, none, none, false, 0, none, none⟩], [], [], [], [], []⟩ 1 "acme/widget" ≤ 1 ∧
    affectedCount (recordAffectedProject
      (recordAffectedProject ⟨[⟨1, some "CVE-2024-0001", none, none, none, none, none, none,
        none, none, none, false, 0, none, none⟩], [], [], [], [], []⟩
        1 "acme/widget" "https://u1" "js" "evidence one" "1.0" 5)
      1 "acme/widget" "https://u2" "js" "evidence two" "1.1" 6) 1 "acme/widget" = 1 :=
  ⟨by decide, by decide,
    (affected_projects_deduplicated _ 1 "acme/widget"
      "https://u1" "js" "evidence one" "1.0" 5
      "https://u2" "js" "evidence two" "1.1" 6 (by decide) (by decide)).1⟩

/-- C3: refreshing ExploitEvidence for an already-recorded
`(vulnerability, URL)` pair updates the star/recency signals of the
existing `poc_references` row in place — the table keeps its length, the
pair still occurs exactly once, and the row now carries the new signals
(the upsert-by-URL operation is modelled from the spec; the table itself
carries no unique constraint on the pair). -/
theorem poc_references_refresh_in_place (db : DB) (vid : Nat) (url : String)
    (kind : Option String) (stars lastCommit : Int)
    (h : pocCount db vid url = 1) :
    (upsertPoc db vid url kind stars lastCommit).poc_references.length
      = db.poc_references.length ∧
    pocCount (upsertPoc db vid url kind stars lastCommit) vid url = 1 ∧
    ∀ r ∈ (upsertPoc db vid url kind stars lastCommit).poc_references, pocKey vid url r →
      r.stars = some stars ∧ r.last_commit_at = some lastCommit := by
  have hex : ∃ r ∈ db.poc_references, pocKey vid url r :=
    (pocCount_pos db vid url).1 (by rw [h]; exact Nat.one_pos)
  unfold upsertPoc
  rw [if_pos hex]
  set g : PocRow → PocRow := fun r =>
    if pocKey vid url r then { r with stars := some stars, last_commit_at := some lastCommit }
    else r with hg
  have hkey : ∀ r : PocRow, pocKey vid url (g r) ↔ pocKey vid url r := by
    intro r
    by_cases hr : pocKey vid url r
    · simp only [hg, if_pos hr]
      exact Iff.rfl
    · simp only [hg, if_neg hr]
  refine ⟨List.length_map _ _, ?_, ?_⟩
  · rw [← h]
    unfold pocCount
    rw [List.countP_map]
    refine List.countP_congr ?_
    intro x _
    simp only [Function.comp_apply, decide_eq_true_eq]
    exact hkey x
  · intro r hr hkr
    rcases List.mem_map.1 hr with ⟨x, hx, rfl⟩
    by_cases hxk : pocKey vid url x
    · simp [hg, if_pos hxk]
    · exact absurd ((hkey x).1 hkr) hxk

theorem poc_references_refresh_in_place_witness :
    pocCount ⟨[⟨1, some "CVE-2024-0001", none, none, none, none, none, none,
        none, none, none, false, 0, none, none⟩], [], [], [],
      [⟨1, some 1, some "https://github.com/x/poc", some "repo", some 3, some 100⟩], []⟩
      1 "https://github.com/x/poc" = 1 ∧
    pocCount (upsertPoc ⟨[⟨1, some "CVE-2024-0001", none, none, none, none, none, none,
        none, none, none, false, 0, none, none⟩], [], [], [],
      [⟨1, some 1, some "https://github.com/x/poc", some "repo", some 3, some 100⟩], []⟩
      1 "https://github.com/x/poc" (some "repo") 9 200) 1 "https://github.com/x/poc" = 1 :=
  ⟨by decide,
    (poc_references_refresh_in_place _ 1 "https://github.com/x/poc"
      (some "repo") 9 200 (by decide)).2.1⟩

/-- C6: the two severity scoring column groups (`cvss_v3_*` and
`cvss_v2_*`) are independent and both optional: row admissibility under
the `vulnerabilities` DDL is unchanged by any choice of the six columns
(including all six NULL), and each column stores the supplied value
verbatim — no merge or derivation relates one group to the other. -/
theorem severity_scorings_independent_optional (r : VulnRow)
    (v3s : Option Rat) (v3sev v3vec : Option String)
    (v2s : Option Rat) (v2sev v2vec : Option String) :
    (vulnRowAdmissible (withScores r v3s v3sev v3vec v2s v2sev v2vec) ↔ vulnRowAdmissible r) ∧
    (withScores r v3s v3sev v3vec v2s v2sev v2vec).cvss_v3_score = v3s ∧
    (withScores r v3s v3sev v3vec v2s v2sev v2vec).cvss_v3_severity = v3sev ∧
    (withScores r v3s v3sev v3vec v2s v2sev v2vec).cvss_v3_vector = v3vec ∧
    (withScores r v3s v3sev v3vec v2s v2sev v2vec).cvss_v2_score = v2s ∧
    (withScores r v3s v3sev v3vec v2s v2sev v2vec).cvss_v2_severity = v2sev ∧
    (withScores r v3s v3sev v3vec v2s v2sev v2vec).cvss_v2_vector = v2vec ∧
    (withScores r v3s v3sev v3vec v2s v2sev v2vec).cve_id = r.cve_id :=
  ⟨Iff.rfl, rfl, rfl, rfl, rfl, rfl, rfl, rfl⟩

/-- C7: the migration creates indexes on the external identifier
(`vulnerabilities.cve_id`), the severity band
(`vulnerabilities.cvss_v3_severity`), the affected-component triple
(`cpe(vendor, product, version)`), and both evidence-to-vulnerability
foreign keys (`poc_references.vuln_id`, `affected_projects.vuln_id`). -/
theorem required_indexes_present :
    (∃ i ∈ schemaIndexes, i.table = "vulnerabilities" ∧ i.columns = ["cve_id"]) ∧
    (∃ i ∈ schemaIndexes, i.table = "vulnerabilities" ∧ i.columns = ["cvss_v3_severity"]) ∧
    (∃ i ∈ schemaIndexes, i.table = "cpe" ∧ i.columns = ["vendor", "product", "version"]) ∧
    (∃ i ∈ schemaIndexes, i.table = "poc_references" ∧ i.columns = ["vuln_id"]) ∧
    (∃ i ∈ schemaIndexes, i.table = "affected_projects" ∧ i.columns = ["vuln_id"]) := by
  decide

/-- C8: the local annotation handlers have no authority over canonical
data — each of `toggleFavorite`, `addTag`, `addComment` changes only its
own browser-local map and that map's `localStorage` mirror: the fetched
`vulns`, the log of HTTP requests (so in particular no write request to
the API), and the other two annotation maps are left unchanged. -/
theorem local_annotations_no_authority (s : AppState) (id : String)
    (tagRes cmtRes : Option String) :
    ((toggleFavorite s id).vulns = s.vulns ∧
     (toggleFavorite s id).apiRequests = s.apiRequests ∧
     (toggleFavorite s id).tags = s.tags ∧
     (toggleFavorite s id).comments = s.comments ∧
     (toggleFavorite s id).storage.tags = s.storage.tags ∧
     (toggleFavorite s id).storage.comments = s.storage.comments ∧
     (toggleFavorite s id).storage.favorites = (toggleFavorite s id).favorites) ∧
    ((addTag s id tagRes).vulns = s.vulns ∧
     (addTag s id tagRes).apiRequests = s.apiRequests ∧
     (addTag s id tagRes).favorites = s.favorites ∧
     (addTag s id tagRes).comments = s.comments ∧
     (addTag s id tagRes).storage.favorites = s.storage.favorites ∧
     (addTag s id tagRes).storage.comments = s.storage.comments ∧
     ((addTag s id tagRes).storage.tags = (addTag s id tagRes).tags ∨
      ((addTag s id tagRes).tags = s.tags ∧
       (addTag s id tagRes).storage.tags = s.storage.tags))) ∧
    ((addComment s id cmtRes).vulns = s.vulns ∧
     (addComment s id cmtRes).apiRequests = s.apiRequests ∧
     (addComment s id cmtRes).favorites = s.favorites ∧
     (addComment s id cmtRes).tags = s.tags ∧
     (addComment s id cmtRes).storage.favorites = s.storage.favorites ∧
     (addComment s id cmtRes).storage.tags = s.storage.tags ∧
     ((addComment s id cmtRes).storage.comments = (addComment s id cmtRes).comments ∨
      ((addComment s id cmtRes).comments = s.comments ∧
       (addComment s id cmtRes).storage.comments = s.storage.comments))) := by
  refine ⟨⟨rfl, rfl, rfl, rfl, rfl, rfl, rfl⟩, ?_, ?_⟩
  · cases tagRes with
    | none => exact ⟨rfl, rfl, rfl, rfl, rfl, rfl, Or.inr ⟨rfl, rfl⟩⟩
    | some tag =>
      by_cases hta : tag = "" <;> simp [addTag, hta]
  · cases cmtRes with
    | none => exact ⟨rfl, rfl, rfl, rfl, rfl, rfl, Or.inr ⟨rfl, rfl⟩⟩
    | some comment =>
      by_cases hco : comment = "" <;> simp [addComment, hco]

/-- C9: `translateOne` is total and falls back to its input — empty text
returns `""` without any service call or state change; when the key is
not cached and the service call throws, it returns the full original
text (not the 4900-character truncated query) and caches nothing; when
the call succeeds but yields a missing or empty `translatedText`, it
also returns the full original text. -/
theorem translateOne_total_with_fallback (svc : String → SvcResult) (st : TransState)
    (text source target : String)
    (hne : text ≠ "") (hmiss : getKey st.cache (cacheKeyOf source target text) = none) :
    translateOne svc st "" source target = ("", st) ∧
    (svc (text.take 4900) = SvcResult.thrown →
      translateOne svc st text source target =
        (text, ⟨st.cache, st.calls ++ [text.take 4900]⟩)) ∧
    (∀ tt, svc (text.take 4900) = SvcResult.ok tt → (tt = none ∨ tt = some "") →
      (translateOne svc st text source target).1 = text) := by
  refine ⟨rfl, ?_, ?_⟩
  · intro hthrown
    rw [translateOne, if_neg hne]
    simp only [hmiss, hthrown]
  · intro tt hok htt
    rw [translateOne, if_neg hne]
    simp only [hmiss, hok]
    rcases htt with rfl | rfl <;> simp [jsOr]

theorem translateOne_total_with_fallback_witness :
    ("hello" : String) ≠ "" ∧
    getKey (⟨[], []⟩ : TransState).cache (cacheKeyOf "en" "ru" "hello") = none ∧
    (translateOne (fun _ => SvcResult.thrown) ⟨[], []⟩ "hello" "en" "ru").1 = "hello" := by
  have h := translateOne_total_with_fallback (fun _ => SvcResult.thrown) ⟨[], []⟩
    "hello" "en" "ru" (by decide) rfl
  exact ⟨by decide, rfl, by rw [h.2.1 rfl]⟩

theorem BatchInv_init (f : String → String) (texts : List String) :
    BatchInv f texts (batchInit texts) := by
  refine ⟨List.length_replicate _ _, ?_, ?_, ?_⟩
  · intro i hi
    exact List.mem_range.1 hi
  · intro i hi
    exact absurd hi (List.not_mem_nil i)
  · intro i hi
    exact Or.inl (List.mem_range.2 hi)

theorem BatchInv_step (f : String → String) (texts : List String) (s1 s2 : BatchState)
    (hstep : BatchStep f texts s1 s2) (hinv : BatchInv f texts s1) :
    BatchInv f texts s2 := by
  obtain ⟨hlen, hq, hp, hdisj⟩ := hinv
  cases hstep with
  | shift i rest pend out =>
    refine ⟨hlen, ?_, ?_, ?_⟩
    · intro j hj
      exact hq j (List.mem_cons_of_mem i hj)
    · intro j hj
      rcases List.mem_append.1 hj with hj | hj
      · exact hp j hj
      · rcases List.mem_singleton.1 hj with rfl
        exact hq j (List.mem_cons_self _ _)
    · intro j hjlt
      rcases hdisj j hjlt with hj | hj | hj
      · rcases List.mem_cons.1 hj with rfl | hj
        · exact Or.inr (Or.inl (List.mem_append_right _ (List.mem_singleton.2 rfl)))
        · exact Or.inl hj
      · exact Or.inr (Or.inl (List.mem_append_left _ hj))
      · exact Or.inr (Or.inr hj)
  | finish q p1 p2 i out =>
    have hilt : i < texts.length := hp i (List.mem_append_right _ (List.mem_cons_self _ _))
    refine ⟨by rw [List.length_set]; exact hlen, hq, ?_, ?_⟩
    · intro j hj
      rcases List.mem_append.1 hj with hj | hj
      · exact hp j (List.mem_append_left _ hj)
      · exact hp j (List.mem_append_right _ (List.mem_cons_of_mem _ hj))
    · intro j hjlt
      by_cases hji : j = i
      · subst hji
        refine Or.inr (Or.inr ?_)
        exact List.get?_set_eq_of_lt _ (by rw [hlen]; exact hjlt)
      · rcases hdisj j hjlt with hj | hj | hj
        · exact Or.inl hj
        · rcases List.mem_append.1 hj with hj | hj
          · exact Or.inr (Or.inl (List.mem_append_left _ hj))
          · rcases List.mem_cons.1 hj with rfl | hj
            · exact absurd rfl hji
            · exact Or.inr (Or.inl (List.mem_append_right _ hj))
        · refine Or.inr (Or.inr ?_)
          rw [List.get?_set_ne _ _ (fun h => hji h.symm)]
          exact hj

theorem BatchInv_reach (f : String → String) (texts : List String) (s : BatchState)
    (hreach : BatchReach f texts s) : BatchInv f texts s := by
  unfold BatchReach at hreach
  induction hreach with
  | refl => exact BatchInv_init f texts
  | tail hsteps hstep ih => exact BatchInv_step f texts _ _ hstep ih

/-- C10: `translateBatch` preserves length and index correspondence — in
every completed run of the worker pool (any interleaving of any number
≥ 1 of workers), the output array has the same length as the input and
its element at index `i` is the per-text result applied to the input text
at index `i`: positions are never permuted or dropped. -/
theorem translateBatch_preserves_indices (f : String → String) (texts : List String)
    (s : BatchState) (hreach : BatchReach f texts s) (hdone : BatchDone s) :
    s.out.length = texts.length ∧
    ∀ i, (hi : i < texts.length) → s.out.get? i = some (some (f texts[i])) := by
  obtain ⟨hlen, -, -, hdisj⟩ := BatchInv_reach f texts s hreach
  obtain ⟨hqnil, hpnil⟩ := hdone
  refine ⟨hlen, ?_⟩
  intro i hi
  rcases hdisj i hi with hj | hj | hj
  · rw [hqnil] at hj
    exact absurd hj (List.not_mem_nil i)
  · rw [hpnil] at hj
    exact absurd hj (List.not_mem_nil i)
  · rw [List.getD_eq_getElem texts "" hi] at hj
    exact hj

theorem translateBatch_preserves_indices_witness :
    BatchDone ⟨[], [], [some ("a" ++ "!"), some ("b" ++ "!")]⟩ ∧
    ([some ("a" ++ "!"), some ("b" ++ "!")] : List (Option String)).get? 1 =
      some (some ((fun t => t ++ "!") "b")) := by
  have h0 : BatchReach (fun t => t ++ "!") ["a", "b"] (batchInit ["a", "b"]) :=
    Relation.ReflTransGen.refl
  have h1 := Relation.ReflTransGen.tail h0
    (BatchStep.shift 0 [1] [] [none, none])
  have h2 := Relation.ReflTransGen.tail h1
    (BatchStep.shift 1 [] [0] [none, none])
  have h3 := Relation.ReflTransGen.tail h2
    (BatchStep.finish [] [] [1] 0 [none, none])
  have h4 := Relation.ReflTransGen.tail h3
    (BatchStep.finish [] [] [] 1
      ([none, none].set 0 (some ((fun t => t ++ "!") (["a", "b"].getD 0 "")))))
  have hr : BatchReach (fun t => t ++ "!") ["a", "b"]
      ⟨[], [], [some ("a" ++ "!"), some ("b" ++ "!")]⟩ := h4
  have h := translateBatch_preserves_indices (fun t => t ++ "!") ["a", "b"]
    ⟨[], [], [some ("a" ++ "!"), some ("b" ++ "!")]⟩ hr ⟨rfl, rfl⟩
  exact ⟨⟨rfl, rfl⟩, h.2 1 (by decide)⟩

end FindCVE
